import Mathlib

/-!
# Trading-simulation backend: Order Execution & Conditional Order Engine

Shallow embedding of the Go sources (package `services`, `handlers`, `models`)
of the trading-simulation backend.  Monetary amounts (Go `float64`) are
modelled as exact rationals `ℚ`; every arithmetic expression appearing in the
source (`qty*price`, weighted average cost, `$inc` updates) is exact, so the
rational model computes the same values the float code intends.  Go `int`
share counts are `Int`.  MongoDB `ObjectID`s are modelled as `Nat`; fresh
`primitive.NewObjectID()` values are passed in as explicit parameters.
MongoDB collections are modelled by the key the code actually queries them
with: `users` as a map from user id to cash balance, `portfolio` as a map
from (user id, symbol) to the position document, `orders` and
`advanced_orders` as lists of order documents.  `FindOne` returning
`mongo.ErrNoDocuments` is `none`; infrastructure failures of the persistence
layer are outside the model, so each collection operation is total.
-/

/-- `models.Portfolio` (models package): one position document. -/
structure Portfolio where
  userId : String
  symbol : String
  shares : Int
  avgCost : ℚ
deriving Repr, DecidableEq

/-- `models.Order` (models package).  The Go field `Type` ("buy"/"sell") is
`type_` here because `Type` is a Lean sort; `OrderType` is one of
"market", "limit", "stop", "stop_limit", "trailing_stop". -/
structure Order where
  id : Nat
  userId : String
  symbol : String
  type_ : String
  orderType : String
  quantity : Int
  price : ℚ
  stopPrice : ℚ
  limitPrice : ℚ
  status : String
  timestamp : Nat
  triggeredAt : Nat
deriving Repr, DecidableEq

/-- The domain errors raised by the engine.  Each constructor corresponds to
one `fmt.Errorf` site in the Go sources (the formatted values carried by the
Go error strings are dropped):
`insufficientFunds` = "insufficient funds. have $…, need $…" (executeBuyOrder),
`noPosition` = "you own no %s" (executeSellOrder),
`insufficientShares` = "insufficient shares: have %d, want %d" (executeSellOrder),
`invalidOrderType` = "invalid order type: %s" (PlaceOrder),
`insufficientSharesForStopLoss` = "insufficient shares for stop loss order"
(CreateStopOrder). -/
inductive OrderError where
  | insufficientFunds
  | insufficientShares
  | noPosition
  | invalidOrderType
  | insufficientSharesForStopLoss
deriving Repr, DecidableEq

/-- The persistent state touched by the engine: the four MongoDB collections. -/
structure DBState where
  balances : String → Option ℚ
  portfolios : String → String → Option Portfolio
  orders : List Order
  advOrders : List Order

/-- `OrderService.GetCashBalance`: looks the user up by id and returns the
stored `cash_balance`; returns the 10000.0 default when the id does not parse
or the user document is absent (both lookup-failure paths collapse to `none`
in the model). -/
def getCashBalance (db : DBState) (userId : String) : ℚ :=
  match db.balances userId with
  | none => 10000
  | some c => c

/-- Write (upsert) one position document at the (user, symbol) key the code
queries with.  Models `portfolioCollection.InsertOne` / `UpdateOne` on that
key. -/
def setPortfolio (db : DBState) (uid sym : String) (pos : Portfolio) : DBState :=
  { db with portfolios := fun u s =>
      if u = uid ∧ s = sym then some pos else db.portfolios u s }

/-- `portfolioCollection.DeleteOne` on the (user, symbol) key. -/
def removePortfolio (db : DBState) (uid sym : String) : DBState :=
  { db with portfolios := fun u s =>
      if u = uid ∧ s = sym then none else db.portfolios u s }

/-- `userCollection.UpdateOne(…, {$inc: {cash_balance: delta}})`: a `$inc`
on the user document when it exists; `UpdateOne` matching zero documents is
a silent no-op (this also covers the Go path where `ObjectIDFromHex` fails
and the zero ObjectID matches nothing). -/
def incBalance (db : DBState) (uid : String) (delta : ℚ) : DBState :=
  { db with balances := fun u =>
      if u = uid then (db.balances u).map (· + delta) else db.balances u }

/-- `OrderService.executeBuyOrder` (auth_service.go:151-203), line by line:
funds check against `GetCashBalance` first; then insert the order record;
then create the position (shares := qty, avg_cost := price) or reweight the
existing one; then `$inc` the balance by `-cost`.  Returns the Go error
together with the database state at return time. -/
def executeBuyOrder (db : DBState) (order : Order) : Option OrderError × DBState :=
  let cash := getCashBalance db order.userId
  let cost := order.price * (order.quantity : ℚ)
  if cash < cost then (some .insufficientFunds, db)
  else
    let db1 := { db with orders := db.orders ++ [order] }
    let db2 :=
      match db1.portfolios order.userId order.symbol with
      | none =>
          setPortfolio db1 order.userId order.symbol
            { userId := order.userId, symbol := order.symbol
              shares := order.quantity, avgCost := order.price }
      | some pos =>
          let totalCost := pos.avgCost * (pos.shares : ℚ) + cost
          let totalShares := pos.shares + order.quantity
          let newAvg := totalCost / (totalShares : ℚ)
          setPortfolio db1 order.userId order.symbol
            { pos with shares := totalShares, avgCost := newAvg }
    (none, incBalance db2 order.userId (-cost))

/-- `OrderService.executeSellOrder` (auth_service.go:205-248): position
lookup (`ErrNoDocuments` ⇒ "you own no %s"); shares check; insert the order
record; decrement shares, deleting the document when the count reaches
exactly 0; then `$inc` the balance by `revenue`. -/
def executeSellOrder (db : DBState) (order : Order) : Option OrderError × DBState :=
  match db.portfolios order.userId order.symbol with
  | none => (some .noPosition, db)
  | some pos =>
      if pos.shares < order.quantity then (some .insufficientShares, db)
      else
        let db1 := { db with orders := db.orders ++ [order] }
        let newShares := pos.shares - order.quantity
        let db2 :=
          if newShares = 0 then removePortfolio db1 order.userId order.symbol
          else setPortfolio db1 order.userId order.symbol { pos with shares := newShares }
        let revenue := order.price * (order.quantity : ℚ)
        (none, incBalance db2 order.userId revenue)

/-- `OrderService.PlaceOrder` (auth_service.go:136-149): stamps a fresh id
(`fid` models `primitive.NewObjectID()`), the current time and status
"filled", then dispatches on `order.Type`; any side other than "buy"/"sell"
is rejected with "invalid order type".  Note the service itself performs no
quantity or price validation. -/
def placeOrder (db : DBState) (order : Order) (fid : Nat) (now : Nat) :
    Option OrderError × DBState :=
  let order := { order with id := fid, timestamp := now, status := "filled" }
  match order.type_ with
  | "buy" => executeBuyOrder db order
  | "sell" => executeSellOrder db order
  | _ => (some .invalidOrderType, db)

/-- `handlers.PlaceOrderRequest` (order_handler.go:21-27). -/
structure PlaceOrderRequest where
  symbol : String
  type_ : String
  orderType : String
  quantity : Int
  price : ℚ
deriving Repr, DecidableEq

/-- The gin `binding` tags of `PlaceOrderRequest`: every field `required`
(non-zero value), `quantity` with `min=1`, `price` with `min=0.01`. -/
def bindingOk (r : PlaceOrderRequest) : Bool :=
  r.symbol ≠ "" && r.type_ ≠ "" && r.orderType ≠ "" &&
    1 ≤ r.quantity && (1 : ℚ)/100 ≤ r.price

/-- `OrderHandler.PlaceOrder` request validation (order_handler.go:37-53):
the binding tags, then `orderType ∈ {market, limit}`, then
`type ∈ {buy, sell}`; a request failing any of these is answered with HTTP
400 before `orderService.PlaceOrder` is called. -/
def handlerAccepts (r : PlaceOrderRequest) : Bool :=
  bindingOk r && (r.orderType = "market" || r.orderType = "limit") &&
    (r.type_ = "buy" || r.type_ = "sell")

/-- `AdvancedOrderService.CreateStopOrder` (auth_service.go:329-354): stamps
id/time/status "active"; for a sell order only, looks the position up and
rejects with "insufficient shares for stop loss order" when the lookup fails
(`err != nil`, which includes `ErrNoDocuments`) or `Shares < Quantity`;
otherwise inserts into `advanced_orders`.  A buy order is inserted with no
check at all. -/
def createStopOrder (db : DBState) (order : Order) (fid : Nat) (now : Nat) :
    Option OrderError × DBState :=
  let order := { order with id := fid, timestamp := now, status := "active" }
  if order.type_ = "sell" then
    match db.portfolios order.userId order.symbol with
    | none => (some .insufficientSharesForStopLoss, db)
    | some pos =>
        if pos.shares < order.quantity then (some .insufficientSharesForStopLoss, db)
        else (none, { db with advOrders := db.advOrders ++ [order] })
  else (none, { db with advOrders := db.advOrders ++ [order] })

/-- `AdvancedOrderService.getCurrentPrice` (auth_service.go:380-386): the
price feed is a parameter (`GetStockPrice` succeeding = `some price`,
failing = `none`); on feed failure the function returns the literal
fallback 100.0. -/
def getCurrentPrice (feed : String → Option ℚ) (symbol : String) : ℚ :=
  match feed symbol with
  | none => 100
  | some p => p

/-- `AdvancedOrderService.shouldTriggerStopOrder` (auth_service.go:388-407),
translated branch for branch; any `Type` other than "sell" takes the buy
branch, and an `OrderType` outside the three kinds never fires. -/
def shouldTriggerStopOrder (order : Order) (currentPrice : ℚ) : Bool :=
  match order.orderType with
  | "stop" =>
      if order.type_ = "sell" then currentPrice ≤ order.stopPrice
      else currentPrice ≥ order.stopPrice
  | "stop_limit" =>
      if order.type_ = "sell" then
        currentPrice ≤ order.stopPrice && currentPrice ≥ order.limitPrice
      else currentPrice ≥ order.stopPrice && currentPrice ≤ order.limitPrice
  | "trailing_stop" =>
      if order.type_ = "sell" then currentPrice ≤ order.stopPrice
      else currentPrice ≥ order.stopPrice
  | _ => false

/-- The registry status update `executeStopOrder` performs when an order
fires (auth_service.go:410-418): `UpdateOne` on `advanced_orders` whose
filter is only `{_id: order.ID}` — there is no `status: "active"`
precondition — setting status "triggered" and recording trigger time and
fill price.  `UpdateOne` matching zero documents reports no error, so the
step has no failure outcome in the model. -/
def markTriggered (db : DBState) (orderId : Nat) (fillPrice : ℚ) (now : Nat) : DBState :=
  { db with advOrders := db.advOrders.map (fun o =>
      if o.id = orderId then
        { o with status := "triggered", triggeredAt := now, price := fillPrice }
      else o) }

/-- `AdvancedOrderService.executeStopOrder` (auth_service.go:409-439): the
unconditional registry update above, then a synthesized market order at the
current price handed to `OrderService.PlaceOrder`; a `PlaceOrder` failure is
only logged, the registry keeps status "triggered". -/
def executeStopOrder (db : DBState) (order : Order) (currentPrice : ℚ)
    (fid : Nat) (now : Nat) : DBState :=
  let db1 := markTriggered db order.id currentPrice now
  let exo : Order :=
    { id := 0, userId := order.userId, symbol := order.symbol
      type_ := order.type_, orderType := "market"
      quantity := order.quantity, price := currentPrice
      stopPrice := 0, limitPrice := 0, status := ""
      timestamp := 0, triggeredAt := 0 }
  (placeOrder db1 exo fid now).2

/-- `AdvancedOrderService.CancelStopOrder` (auth_service.go:456-468):
`UpdateOne` on `advanced_orders` filtered only by `{_id}`, setting status
"cancelled" unconditionally.  The sole Go error path, a malformed hex id in
`ObjectIDFromHex`, is outside the model (ids are already `Nat`); an absent
id matches zero documents and reports no error. -/
def cancelStopOrder (db : DBState) (orderId : Nat) : Option OrderError × DBState :=
  (none, { db with advOrders := db.advOrders.map (fun o =>
      if o.id = orderId then { o with status := "cancelled" } else o) })

/-- One tick of `AdvancedOrderService.CheckAndExecuteStopOrders`
(auth_service.go:356-378): snapshot the active stop-kind orders, then for
each fetch the current price (with the 100.0 fallback) and, when the trigger
predicate fires, run `executeStopOrder` on the evolving state.  Fresh
ObjectIDs for the synthesized fills are `fid0`, `fid0+1`, …. -/
def checkAndExecuteStopOrders (db : DBState) (feed : String → Option ℚ)
    (fid0 : Nat) (now : Nat) : DBState :=
  let active := db.advOrders.filter (fun o =>
    o.status = "active" &&
      (o.orderType = "stop" || o.orderType = "stop_limit" ||
        o.orderType = "trailing_stop"))
  (active.enum).foldl (fun acc io =>
    let o := io.2
    let p := getCurrentPrice feed o.symbol
    if shouldTriggerStopOrder o p then executeStopOrder acc o p (fid0 + io.1) now
    else acc) db

/-- The ledger invariant of the spec: no stored cash balance is negative and
no stored position has a negative share count. -/
def ledgerInv (db : DBState) : Prop :=
  (∀ u q, db.balances u = some q → 0 ≤ q) ∧
  (∀ u s pos, db.portfolios u s = some pos → 0 ≤ pos.shares)

/-- A sequence of `PlaceOrder` calls applied in order; each element carries
the order together with its fresh ObjectID and timestamp. -/
def applyOrders (db : DBState) (ops : List (Order × Nat × Nat)) : DBState :=
  ops.foldl (fun acc x => (placeOrder acc x.1 x.2.1 x.2.2).2) db

/-- Concrete test state: one user "u" with the initial cash of 10000,
no positions, no order records. -/
def db0 : DBState where
  balances := fun u => if u = "u" then some 10000 else none
  portfolios := fun _ _ => none
  orders := []
  advOrders := []

/-- Concrete test order: a market buy for user "u" on "AAPL". -/
def buyOrder (qty : Int) (p : ℚ) : Order :=
  { id := 0, userId := "u", symbol := "AAPL", type_ := "buy", orderType := "market"
    quantity := qty, price := p, stopPrice := 0, limitPrice := 0
    status := "", timestamp := 0, triggeredAt := 0 }

/-- Concrete test order: a sell stop that has already been cancelled. -/
def cancelledOrder : Order :=
  { id := 5, userId := "u", symbol := "AAPL", type_ := "sell", orderType := "stop"
    quantity := 3, price := 0, stopPrice := 150, limitPrice := 0
    status := "cancelled", timestamp := 0, triggeredAt := 0 }

/-- Concrete test order: an active sell stop for 3 shares with stop price 150. -/
def activeStop : Order :=
  { id := 5, userId := "u", symbol := "AAPL", type_ := "sell", orderType := "stop"
    quantity := 3, price := 0, stopPrice := 150, limitPrice := 0
    status := "active", timestamp := 0, triggeredAt := 0 }

/-- Concrete test state: user "u" with 10000 cash holding 10 "AAPL" shares,
and `activeStop` pending in the conditional-order registry. -/
def stopDb : DBState where
  balances := fun u => if u = "u" then some 10000 else none
  portfolios := fun u s =>
    if u = "u" ∧ s = "AAPL" then some ⟨"u", "AAPL", 10, 150⟩ else none
  orders := []
  advOrders := [activeStop]

/-- Helper: `PlaceOrder` never touches the `advanced_orders` collection. -/
theorem placeOrder_advOrders (db : DBState) (o : Order) (fid now : Nat) :
    ((placeOrder db o fid now).2).advOrders = db.advOrders := by
  simp only [placeOrder, executeBuyOrder, executeSellOrder]
  split
  · split
    · rfl
    · split <;> simp [setPortfolio, incBalance]
  · split
    · rfl
    · split
      · rfl
      · split <;> simp [setPortfolio, removePortfolio, incBalance]
  · rfl

/-- Helper: `executeBuyOrder` leaves the state untouched whenever it returns
an error (the funds check precedes every write). -/
theorem executeBuyOrder_err (db : DBState) (o : Order) (e : OrderError)
    (h : (executeBuyOrder db o).1 = some e) : (executeBuyOrder db o).2 = db := by
  by_cases hc : getCashBalance db o.userId < o.price * (o.quantity : ℚ)
  · simp [executeBuyOrder, hc]
  · simp [executeBuyOrder, hc] at h

/-- Helper: `executeSellOrder` leaves the state untouched whenever it returns
an error (position and shares checks precede every write). -/
theorem executeSellOrder_err (db : DBState) (o : Order) (e : OrderError)
    (h : (executeSellOrder db o).1 = some e) : (executeSellOrder db o).2 = db := by
  rcases hp : db.portfolios o.userId o.symbol with _ | pos
  · simp [executeSellOrder, hp]
  · by_cases hs : pos.shares < o.quantity
    · simp [executeSellOrder, hp, hs]
    · simp [executeSellOrder, hp, hs] at h

/-- C2: every `PlaceOrder` call that returns an error (the ledger checks
`InsufficientFunds`, `NoPosition`, `InsufficientShares`, or the invalid-side
rejection) leaves the database exactly as it was: no execution record and no
ledger mutation exist, so a retry starts from the identical state and cannot
double-apply a mutation. -/
theorem placeOrder_ledger_error_no_partial_state (db : DBState) (o : Order)
    (fid now : Nat) (e : OrderError) (h : (placeOrder db o fid now).1 = some e) :
    (placeOrder db o fid now).2 = db := by
  by_cases hb : o.type_ = "buy"
  · simp only [placeOrder, hb] at h ⊢
    exact executeBuyOrder_err _ _ e h
  · by_cases hs : o.type_ = "sell"
    · simp only [placeOrder, hs] at h ⊢
      exact executeSellOrder_err _ _ e h
    · simp [placeOrder, hb, hs]

/-- C2 witness: a buy of 1 share at 20000 against a 10000 balance fails the
funds check and leaves the state unchanged. -/
theorem placeOrder_ledger_error_no_partial_state_witness :
    (placeOrder db0 (buyOrder 1 20000) 1 0).2 = db0 :=
  placeOrder_ledger_error_no_partial_state db0 (buyOrder 1 20000) 1 0 .insufficientFunds
    (by norm_num [placeOrder, executeBuyOrder, getCashBalance, db0, buyOrder])

/-- C3: for a buy order on an account holding balance `bal`: if
`bal < price*qty` the call fails with `InsufficientFunds` and changes
nothing; otherwise it succeeds, the balance is debited exactly `price*qty`,
a first buy creates the position with shares = qty and avg_cost = price, and
a buy onto an existing position `pos` yields shares = pos.shares + qty and
avg_cost = (pos.avgCost*pos.shares + qty*price) / (pos.shares + qty). -/
theorem placeOrder_buy_spec (db : DBState) (o : Order) (fid now : Nat) (bal : ℚ)
    (hb : o.type_ = "buy") (hbal : db.balances o.userId = some bal) :
    (bal < o.price * (o.quantity : ℚ) →
      placeOrder db o fid now = (some .insufficientFunds, db)) ∧
    (o.price * (o.quantity : ℚ) ≤ bal →
      (placeOrder db o fid now).1 = none ∧
      (placeOrder db o fid now).2.balances o.userId =
        some (bal - o.price * (o.quantity : ℚ)) ∧
      (db.portfolios o.userId o.symbol = none →
        (placeOrder db o fid now).2.portfolios o.userId o.symbol =
          some { userId := o.userId, symbol := o.symbol,
                 shares := o.quantity, avgCost := o.price }) ∧
      (∀ pos, db.portfolios o.userId o.symbol = some pos →
        (placeOrder db o fid now).2.portfolios o.userId o.symbol =
          some { pos with
                 shares := pos.shares + o.quantity,
                 avgCost := (pos.avgCost * (pos.shares : ℚ) + (o.quantity : ℚ) * o.price) /
                   ((pos.shares : ℚ) + (o.quantity : ℚ)) })) := by
  have hcash : getCashBalance db o.userId = bal := by simp [getCashBalance, hbal]
  constructor
  · intro hlt
    simp [placeOrder, hb, executeBuyOrder, hcash, hlt]
  · intro hge
    have hnlt : ¬ getCashBalance db o.userId < o.price * (o.quantity : ℚ) := by
      rw [hcash]; exact not_lt.mpr hge
    refine ⟨?_, ?_, ?_, ?_⟩
    · rcases hp : db.portfolios o.userId o.symbol with _ | pos <;>
        simp [placeOrder, hb, executeBuyOrder, hnlt, hp]
    · rcases hp : db.portfolios o.userId o.symbol with _ | pos <;>
        simp [placeOrder, hb, executeBuyOrder, hnlt, hp, setPortfolio, incBalance, hbal,
          sub_eq_add_neg]
    · intro hnone
      simp [placeOrder, hb, executeBuyOrder, hnlt, hnone, setPortfolio, incBalance]
    · intro pos hpos
      simp [placeOrder, hb, executeBuyOrder, hnlt, hpos, setPortfolio, incBalance,
        Portfolio.mk.injEq]
      ring_nf

/-- C3 witness: buying 10 shares at 175.50 from a 10000 balance succeeds
(the spec scenario). -/
theorem placeOrder_buy_spec_witness :
    db0.balances (buyOrder 10 (351/2)).userId = some 10000 ∧
    (placeOrder db0 (buyOrder 10 (351/2)) 1 0).1 = none := by
  have hb : db0.balances (buyOrder 10 (351/2)).userId = some 10000 := by
    simp [db0, buyOrder]
  refine ⟨hb, ?_⟩
  exact ((placeOrder_buy_spec db0 (buyOrder 10 (351/2)) 1 0 10000 rfl hb).2
    (by norm_num [buyOrder])).1

/-- C4: for a sell order: with no position the call fails with `NoPosition`
and changes nothing; with fewer shares than requested it fails with
`InsufficientShares` and changes nothing; otherwise it succeeds, the balance
is credited exactly `price*qty`, and the position is removed entirely when
the share count reaches exactly zero, else decremented by qty. -/
theorem placeOrder_sell_spec (db : DBState) (o : Order) (fid now : Nat)
    (hs : o.type_ = "sell") :
    (db.portfolios o.userId o.symbol = none →
      placeOrder db o fid now = (some .noPosition, db)) ∧
    (∀ pos, db.portfolios o.userId o.symbol = some pos →
      (pos.shares < o.quantity →
        placeOrder db o fid now = (some .insufficientShares, db)) ∧
      (o.quantity ≤ pos.shares →
        (placeOrder db o fid now).1 = none ∧
        (placeOrder db o fid now).2.balances o.userId =
          (db.balances o.userId).map (· + o.price * (o.quantity : ℚ)) ∧
        (pos.shares = o.quantity →
          (placeOrder db o fid now).2.portfolios o.userId o.symbol = none) ∧
        (pos.shares ≠ o.quantity →
          (placeOrder db o fid now).2.portfolios o.userId o.symbol =
            some { pos with shares := pos.shares - o.quantity }))) := by
  constructor
  · intro hnone
    simp [placeOrder, hs, executeSellOrder, hnone]
  · intro pos hpos
    constructor
    · intro hlt
      simp [placeOrder, hs, executeSellOrder, hpos, hlt]
    · intro hge
      have hnlt : ¬ pos.shares < o.quantity := not_lt.mpr hge
      refine ⟨?_, ?_, ?_, ?_⟩
      · by_cases hz : pos.shares - o.quantity = 0 <;>
          simp [placeOrder, hs, executeSellOrder, hpos, hnlt, hz]
      · by_cases hz : pos.shares - o.quantity = 0 <;>
          simp [placeOrder, hs, executeSellOrder, hpos, hnlt, hz, setPortfolio,
            removePortfolio, incBalance]
      · intro heq
        have hz : pos.shares - o.quantity = 0 := by omega
        simp [placeOrder, hs, executeSellOrder, hpos, hnlt, hz, removePortfolio, incBalance]
      · intro hne
        have hz : ¬ pos.shares - o.quantity = 0 := by omega
        simp [placeOrder, hs, executeSellOrder, hpos, hnlt, hz, setPortfolio, incBalance]

/-- C4 witness: selling 3 of 10 held shares succeeds. -/
theorem placeOrder_sell_spec_witness :
    stopDb.portfolios ({ buyOrder 3 100 with type_ := "sell" } : Order).userId
      ({ buyOrder 3 100 with type_ := "sell" } : Order).symbol =
        some ⟨"u", "AAPL", 10, 150⟩ ∧
    (placeOrder stopDb { buyOrder 3 100 with type_ := "sell" } 1 0).1 = none := by
  have hp : stopDb.portfolios ({ buyOrder 3 100 with type_ := "sell" } : Order).userId
      ({ buyOrder 3 100 with type_ := "sell" } : Order).symbol =
        some ⟨"u", "AAPL", 10, 150⟩ := by
    simp [stopDb, buyOrder]
  refine ⟨hp, ?_⟩
  exact ((((placeOrder_sell_spec stopDb { buyOrder 3 100 with type_ := "sell" } 1 0 rfl).2
    ⟨"u", "AAPL", 10, 150⟩ hp).2) (by norm_num [buyOrder])).1

/-- C1 counterexample: the claim says the registry status update fails with
`AlreadyTerminal` when the order has already left `active`.  Here the order
is already `cancelled` (it left `active`), yet the update performed by
`executeStopOrder` still moves it to `triggered`, recording trigger time and
price — the order transitions out of `active` a second time instead of the
update failing. -/
theorem markTriggered_overwrites_cancelled :
    cancelledOrder.status = "cancelled" ∧
    (markTriggered { db0 with advOrders := [cancelledOrder] } 5 90 7).advOrders =
      [{ cancelledOrder with status := "triggered", triggeredAt := 7, price := 90 }] := by
  constructor
  · rfl
  · simp [markTriggered, db0, cancelledOrder]

/-- C1 (amended): the registry update performed when the Trigger Monitor
fires an order filters only by `_id` — it sets every matching order to
`triggered`, recording trigger time and fill price, regardless of the
order's current lifecycle state, and it has no `AlreadyTerminal` failure
outcome; hence it does not enforce at-most-once transition out of
`active`. -/
theorem markTriggered_unconditional (db : DBState) (oid : Nat) (p : ℚ) (now : Nat)
    (o : Order) (hmem : o ∈ db.advOrders) (hid : o.id = oid) :
    { o with status := "triggered", triggeredAt := now, price := p } ∈
      (markTriggered db oid p now).advOrders := by
  simp only [markTriggered]
  exact List.mem_map.mpr ⟨o, hmem, by simp [hid]⟩

/-- C1 witness: the update applied to the pending stop order in `stopDb`. -/
theorem markTriggered_unconditional_witness :
    { activeStop with status := "triggered", triggeredAt := 7, price := 100 } ∈
      (markTriggered stopDb 5 100 7).advOrders :=
  markTriggered_unconditional stopDb 5 100 7 activeStop (by simp [stopDb]) rfl

/-- C5 counterexample: the claim says `Cancel` fails with `NotFound` for an
absent id and with `AlreadyTerminal` for a non-`active` order.  Here a
cancel of an order already in the terminal state `triggered` reports no
error and silently overwrites the state to `cancelled`, and a cancel of an
id that matches nothing (99) also reports no error. -/
theorem cancelStopOrder_overwrites_triggered :
    (cancelStopOrder { db0 with advOrders := [{ cancelledOrder with status := "triggered" }] } 5).1
      = none ∧
    (cancelStopOrder { db0 with advOrders := [{ cancelledOrder with status := "triggered" }] } 5).2.advOrders
      = [{ cancelledOrder with status := "cancelled" }] ∧
    (cancelStopOrder db0 99).1 = none ∧ (∀ o, o ∈ db0.advOrders → o.id ≠ 99) := by
  refine ⟨rfl, ?_, rfl, ?_⟩
  · simp [cancelStopOrder, db0, cancelledOrder]
  · intro o hmem
    simp [db0] at hmem

/-- C5 (amended): `CancelStopOrder` filters only by `_id` and reports
success unconditionally: it never returns `NotFound` for an absent id nor
`AlreadyTerminal` for a terminal order, and it sets every matching order to
`cancelled` regardless of its current state, so a cancel racing with a
trigger silently overwrites the winner rather than observing an error. -/
theorem cancelStopOrder_unconditional (db : DBState) (oid : Nat) :
    (cancelStopOrder db oid).1 = none ∧
    ∀ o ∈ db.advOrders, o.id = oid →
      { o with status := "cancelled" } ∈ (cancelStopOrder db oid).2.advOrders := by
  constructor
  · rfl
  · intro o hmem hid
    simp only [cancelStopOrder]
    exact List.mem_map.mpr ⟨o, hmem, by simp [hid]⟩

/-- C5 witness: cancelling the pending stop order in `stopDb`. -/
theorem cancelStopOrder_unconditional_witness :
    (cancelStopOrder stopDb 5).1 = none ∧
    { activeStop with status := "cancelled" } ∈ (cancelStopOrder stopDb 5).2.advOrders :=
  ⟨(cancelStopOrder_unconditional stopDb 5).1,
   (cancelStopOrder_unconditional stopDb 5).2 activeStop (by simp [stopDb]) rfl⟩

/-- C6 counterexample: the claim says `PlaceOrder` rejects quantity ≤ 0 with
`InvalidOrder` before any ledger mutation.  A buy with quantity −1 is
accepted (no error), creates a position document with −1 shares, and
credits the balance. -/
theorem placeOrder_accepts_nonpositive_quantity :
    (buyOrder (-1) 10).quantity ≤ 0 ∧
    (placeOrder db0 (buyOrder (-1) 10) 1 0).1 = none ∧
    (placeOrder db0 (buyOrder (-1) 10) 1 0).2.portfolios "u" "AAPL" =
      some ⟨"u", "AAPL", -1, 10⟩ ∧
    (placeOrder db0 (buyOrder (-1) 10) 1 0).2.balances "u" = some 10010 := by
  refine ⟨by norm_num [buyOrder], ?_, ?_, ?_⟩ <;>
    simp [placeOrder, executeBuyOrder, getCashBalance, setPortfolio, incBalance, db0,
      buyOrder] <;> norm_num

/-- C6 (amended): `PlaceOrder` rejects an order whose side is neither "buy"
nor "sell" with the invalid-order error before any state change, but it
performs no quantity or price check itself; positivity (quantity ≥ 1,
price ≥ 0.01) is enforced only by the HTTP handler's request binding. -/
theorem placeOrder_validation_amended :
    (∀ (db : DBState) (o : Order) (fid now : Nat), o.type_ ≠ "buy" → o.type_ ≠ "sell" →
      placeOrder db o fid now = (some .invalidOrderType, db)) ∧
    (∀ r : PlaceOrderRequest, handlerAccepts r = true →
      1 ≤ r.quantity ∧ (1 : ℚ)/100 ≤ r.price) := by
  constructor
  · intro db o fid now hb hs
    simp [placeOrder, hb, hs]
  · intro r h
    simp [handlerAccepts, bindingOk] at h
    refine ⟨by tauto, by rw [one_div]; tauto⟩

/-- C6 witness: an order with side "hold" is rejected without state change,
and an accepted request has positive quantity and price. -/
theorem placeOrder_validation_amended_witness :
    placeOrder db0 { buyOrder 1 10 with type_ := "hold" } 1 0 =
      (some .invalidOrderType, db0) ∧
    (1 ≤ (3 : Int) ∧ (1 : ℚ)/100 ≤ 5) :=
  ⟨placeOrder_validation_amended.1 db0 { buyOrder 1 10 with type_ := "hold" } 1 0
      (by simp [buyOrder]) (by simp [buyOrder]),
   placeOrder_validation_amended.2 ⟨"AAPL", "buy", "market", 3, 5⟩
      (by simp [handlerAccepts, bindingOk]; norm_num)⟩

/-- Helper: a buy with quantity ≥ 1 preserves the ledger invariant (the
funds guard keeps the balance non-negative; the new or reweighted position
has a positive share count). -/
theorem executeBuyOrder_preserves (db : DBState) (o : Order)
    (hq : 1 ≤ o.quantity) (hinv : ledgerInv db) :
    ledgerInv (executeBuyOrder db o).2 := by
  obtain ⟨hbal, hpos⟩ := hinv
  by_cases hc : getCashBalance db o.userId < o.price * (o.quantity : ℚ)
  · simpa [executeBuyOrder, hc] using ⟨hbal, hpos⟩
  · constructor
    · intro u q h
      by_cases hu : u = o.userId
      · rcases hm : db.portfolios o.userId o.symbol with _ | pos <;>
          (simp [executeBuyOrder, hc, hm, incBalance, setPortfolio, hu] at h;
           obtain ⟨b, hdb, hbq⟩ := h;
           have hb0 : getCashBalance db o.userId = b := by simp [getCashBalance, hdb];
           rw [hb0] at hc;
           linarith [not_lt.mp hc])
      · rcases hm : db.portfolios o.userId o.symbol with _ | pos <;>
          (simp [executeBuyOrder, hc, hm, incBalance, setPortfolio, hu] at h;
           exact hbal u q h)
    · intro u s ps h
      rcases hm : db.portfolios o.userId o.symbol with _ | pos
      · by_cases hus : u = o.userId ∧ s = o.symbol
        · simp [executeBuyOrder, hc, hm, incBalance, setPortfolio, hus] at h
          rw [← h]
          simp
          omega
        · simp [executeBuyOrder, hc, hm, incBalance, setPortfolio, hus] at h
          exact hpos u s ps h
      · by_cases hus : u = o.userId ∧ s = o.symbol
        · simp [executeBuyOrder, hc, hm, incBalance, setPortfolio, hus] at h
          rw [← h]
          simp
          have := hpos _ _ _ hm
          omega
        · simp [executeBuyOrder, hc, hm, incBalance, setPortfolio, hus] at h
          exact hpos u s ps h

/-- Helper: a sell with quantity ≥ 1 and price > 0 preserves the ledger
invariant (the shares guard keeps the count non-negative; the credit keeps
the balance non-negative). -/
theorem executeSellOrder_preserves (db : DBState) (o : Order)
    (hq : 1 ≤ o.quantity) (hp : 0 < o.price) (hinv : ledgerInv db) :
    ledgerInv (executeSellOrder db o).2 := by
  obtain ⟨hbal, hpos⟩ := hinv
  rcases hm : db.portfolios o.userId o.symbol with _ | pos
  · simpa [executeSellOrder, hm] using ⟨hbal, hpos⟩
  · by_cases hsq : pos.shares < o.quantity
    · simpa [executeSellOrder, hm, hsq] using ⟨hbal, hpos⟩
    · have hq0 : (0 : ℚ) ≤ (o.quantity : ℚ) := by
        exact_mod_cast (by omega : (0 : Int) ≤ o.quantity)
      have hrev : (0 : ℚ) ≤ o.price * (o.quantity : ℚ) := mul_nonneg hp.le hq0
      constructor
      · intro u q h
        by_cases hu : u = o.userId
        · by_cases hz : pos.shares - o.quantity = 0 <;>
            (simp [executeSellOrder, hm, hsq, hz, incBalance, removePortfolio,
              setPortfolio, hu] at h;
             obtain ⟨b, hdb, hbq⟩ := h;
             have := hbal _ _ hdb;
             linarith)
        · by_cases hz : pos.shares - o.quantity = 0 <;>
            (simp [executeSellOrder, hm, hsq, hz, incBalance, removePortfolio,
              setPortfolio, hu] at h;
             exact hbal u q h)
      · intro u s ps h
        by_cases hz : pos.shares - o.quantity = 0
        · by_cases hus : u = o.userId ∧ s = o.symbol
          · simp [executeSellOrder, hm, hsq, hz, incBalance, removePortfolio, hus] at h
          · simp [executeSellOrder, hm, hsq, hz, incBalance, removePortfolio, hus] at h
            exact hpos u s ps h
        · by_cases hus : u = o.userId ∧ s = o.symbol
          · simp [executeSellOrder, hm, hsq, hz, incBalance, setPortfolio, hus] at h
            rw [← h]
            simp
            omega
          · simp [executeSellOrder, hm, hsq, hz, incBalance, setPortfolio, hus] at h
            exact hpos u s ps h

/-- Helper: one `PlaceOrder` call with quantity ≥ 1 and price > 0 preserves
the ledger invariant. -/
theorem placeOrder_preserves_ledgerInv (db : DBState) (o : Order) (fid now : Nat)
    (hq : 1 ≤ o.quantity) (hp : 0 < o.price) (hinv : ledgerInv db) :
    ledgerInv (placeOrder db o fid now).2 := by
  by_cases hb : o.type_ = "buy"
  · simp only [placeOrder, hb]
    exact executeBuyOrder_preserves db _ hq hinv
  · by_cases hs : o.type_ = "sell"
    · simp only [placeOrder, hs]
      exact executeSellOrder_preserves db _ hq hp hinv
    · simpa [placeOrder, hb, hs] using hinv

/-- C7 counterexample: the claim has no positivity restriction on the
operations, but the engine accepts a buy of −1 shares, after which the
stored position has a negative share count. -/
theorem negative_shares_reachable :
    (applyOrders db0 [(buyOrder (-1) 10, 1, 0)]).portfolios "u" "AAPL" =
      some ⟨"u", "AAPL", -1, 10⟩ ∧
    ((⟨"u", "AAPL", -1, 10⟩ : Portfolio)).shares < 0 := by
  constructor
  · simp [applyOrders, placeOrder, executeBuyOrder, getCashBalance, setPortfolio,
      incBalance, db0, buyOrder]
    norm_num
  · norm_num

/-- C7 (amended): for every sequence of `PlaceOrder` calls whose orders all
have quantity ≥ 1 and price > 0 (the bounds the HTTP handler's request
binding enforces), starting from a state where no balance and no share
count is negative, no balance or share count ever becomes negative. -/
theorem ledgerInv_preserved (ops : List (Order × Nat × Nat)) :
    ∀ db : DBState, (∀ x ∈ ops, 1 ≤ x.1.quantity ∧ 0 < x.1.price) →
      ledgerInv db → ledgerInv (applyOrders db ops) := by
  induction ops with
  | nil =>
      intro db _ hinv
      simpa [applyOrders] using hinv
  | cons x xs ih =>
      intro db hops hinv
      have hx := hops x (List.mem_cons_self x xs)
      have h1 := placeOrder_preserves_ledgerInv db x.1 x.2.1 x.2.2 hx.1 hx.2 hinv
      have heq : applyOrders db (x :: xs) =
          applyOrders (placeOrder db x.1 x.2.1 x.2.2).2 xs := by
        simp [applyOrders]
      rw [heq]
      exact ih _ (fun y hy => hops y (List.mem_cons_of_mem x hy)) h1

/-- C7 witness: a single valid buy from the initial state keeps the
invariant. -/
theorem ledgerInv_preserved_witness :
    ledgerInv (applyOrders db0 [(buyOrder 2 50, 1, 0)]) :=
  ledgerInv_preserved [(buyOrder 2 50, 1, 0)] db0
    (by norm_num [buyOrder])
    (by
      constructor
      · intro u q h
        by_cases hu : u = "u" <;> simp [db0, hu] at h
        rw [← h]
        norm_num
      · intro u s ps h
        simp [db0] at h)

/-- C8 counterexample: the claim says a conditional order whose price-feed
lookup fails is skipped with no state change.  With a feed that always
fails, the pending sell stop in `stopDb` is nevertheless evaluated against
the substitute price 100.0, transitions to `triggered`, and the resulting
fill credits the balance — the state changes. -/
theorem feed_failure_triggers_at_default_price :
    activeStop.status = "active" ∧ stopDb.advOrders = [activeStop] ∧
    (checkAndExecuteStopOrders stopDb (fun _ => none) 1 7).advOrders =
      [{ activeStop with status := "triggered", triggeredAt := 7, price := 100 }] ∧
    (checkAndExecuteStopOrders stopDb (fun _ => none) 1 7).balances "u" = some 10300 := by
  refine ⟨rfl, rfl, ?_, ?_⟩ <;>
    simp [checkAndExecuteStopOrders, executeStopOrder, markTriggered, placeOrder,
      executeSellOrder, getCurrentPrice, shouldTriggerStopOrder, setPortfolio,
      incBalance, removePortfolio, stopDb, activeStop] <;> norm_num

/-- C8 (amended): when the price feed fails for a symbol, `getCurrentPrice`
substitutes the constant fallback 100.0 and the tick evaluates the trigger
against that substitute — an active sell stop whose stop price is ≥ 100 is
triggered rather than skipped.  The feed failure is never fatal: the tick
completes and updates the registry. -/
theorem feed_failure_substitutes_default_price (db : DBState) (o : Order)
    (fid now : Nat) (feed : String → Option ℚ)
    (hfeed : feed o.symbol = none) (hdb : db.advOrders = [o])
    (hst : o.status = "active") (hot : o.orderType = "stop")
    (hty : o.type_ = "sell") (htr : (100 : ℚ) ≤ o.stopPrice) :
    getCurrentPrice feed o.symbol = 100 ∧
    (checkAndExecuteStopOrders db feed fid now).advOrders =
      [{ o with status := "triggered", triggeredAt := now, price := 100 }] := by
  have hgp : getCurrentPrice feed o.symbol = 100 := by simp [getCurrentPrice, hfeed]
  refine ⟨hgp, ?_⟩
  have htrig : shouldTriggerStopOrder o 100 = true := by
    simp [shouldTriggerStopOrder, hot, hty, htr]
  simp only [checkAndExecuteStopOrders, hdb]
  simp [hst, hot, htrig, executeStopOrder, placeOrder_advOrders, markTriggered, hgp, hdb]

/-- C8 witness: the amended statement applied to `stopDb` with a feed that
always fails. -/
theorem feed_failure_substitutes_default_price_witness :
    getCurrentPrice (fun _ => none) activeStop.symbol = 100 ∧
    (checkAndExecuteStopOrders stopDb (fun _ => none) 1 7).advOrders =
      [{ activeStop with status := "triggered", triggeredAt := 7, price := 100 }] :=
  feed_failure_substitutes_default_price stopDb activeStop 1 7 (fun _ => none)
    rfl rfl rfl rfl rfl (by norm_num [activeStop])

/-- C9: the trigger predicate fires exactly as specified per kind and side:
a sell stop fires iff price ≤ stop price and a buy stop iff price ≥ stop
price; a sell stop-limit fires iff stop ≥ price ≥ limit and a buy
stop-limit iff stop ≤ price ≤ limit; a trailing stop is evaluated exactly
like a stop against the order's current stop price. -/
theorem shouldTriggerStopOrder_spec (o : Order) (p : ℚ) :
    (shouldTriggerStopOrder { o with orderType := "stop", type_ := "sell" } p = true ↔
      p ≤ o.stopPrice) ∧
    (shouldTriggerStopOrder { o with orderType := "stop", type_ := "buy" } p = true ↔
      p ≥ o.stopPrice) ∧
    (shouldTriggerStopOrder { o with orderType := "stop_limit", type_ := "sell" } p = true ↔
      o.stopPrice ≥ p ∧ p ≥ o.limitPrice) ∧
    (shouldTriggerStopOrder { o with orderType := "stop_limit", type_ := "buy" } p = true ↔
      o.stopPrice ≤ p ∧ p ≤ o.limitPrice) ∧
    (shouldTriggerStopOrder { o with orderType := "trailing_stop" } p =
      shouldTriggerStopOrder { o with orderType := "stop" } p) := by
  refine ⟨?_, ?_, ?_, ?_, ?_⟩ <;> simp [shouldTriggerStopOrder]

/-- C10: a buy-side conditional order is accepted with no precondition on
the account's balance or holdings; a sell-side conditional order is
rejected exactly when the position lookup fails (no position document) or
the held shares are fewer than the requested quantity, and otherwise
inserted as `active`. -/
theorem createStopOrder_spec (db : DBState) (o : Order) (fid now : Nat) :
    (o.type_ = "buy" → createStopOrder db o fid now =
      (none, { db with advOrders :=
        db.advOrders ++ [{ o with id := fid, timestamp := now, status := "active" }] })) ∧
    (o.type_ = "sell" →
      (db.portfolios o.userId o.symbol = none →
        createStopOrder db o fid now = (some .insufficientSharesForStopLoss, db)) ∧
      (∀ pos, db.portfolios o.userId o.symbol = some pos →
        (pos.shares < o.quantity →
          createStopOrder db o fid now = (some .insufficientSharesForStopLoss, db)) ∧
        (o.quantity ≤ pos.shares →
          createStopOrder db o fid now =
            (none, { db with advOrders :=
              db.advOrders ++ [{ o with id := fid, timestamp := now, status := "active" }] })))) := by
  constructor
  · intro hb
    simp [createStopOrder, hb]
  · intro hs
    constructor
    · intro hnone
      simp [createStopOrder, hs, hnone]
    · intro pos hpos
      constructor
      · intro hlt
        simp [createStopOrder, hs, hpos, hlt]
      · intro hge
        simp [createStopOrder, hs, hpos, not_lt.mpr hge]

/-- C10 witness: a buy-side stop order is accepted against the empty state,
which holds no position and could not pass any holdings check. -/
theorem createStopOrder_spec_witness :
    createStopOrder db0 { buyOrder 2 10 with orderType := "stop" } 1 0 =
      (none, { db0 with advOrders := db0.advOrders ++
        [{ ({ buyOrder 2 10 with orderType := "stop" } : Order) with
           id := 1, timestamp := 0, status := "active" }] }) :=
  (createStopOrder_spec db0 { buyOrder 2 10 with orderType := "stop" } 1 0).1 rfl
